import Mathlib

/-!
Verification of the terminal rendering and host-integration engine of the
claude-dashboard plugin (`src/main.js`).

Modelling conventions: JS strings are modelled as `List Char` (every
character appearing in the program is in the Basic Multilingual Plane, so
JS UTF-16 code units coincide with code points), JS numbers as `ℚ`, `ℤ` or
`ℕ` as appropriate, and nullable values as `Option`.  External collaborators
(credential lookup, HTTP fetch, `JSON.parse`, `Date` parsing) are modelled
at their interface boundary: a resolved `Option` value.
-/

/-- The escape character that starts every ANSI control sequence (`\x1b`). -/
def escC : Char := '\x1b'

/-- Characters allowed in the body of a color control span: the character
class `[0-9;]` of the stripping regex `/\x1b\[[0-9;]*m/g` in `src/main.js`. -/
def isSpanBody (c : Char) : Bool := c.isDigit || c = ';'

/-- One step of the left-to-right scanner implementing the global replacement
`s.replace(/\x1b\[[0-9;]*m/g, '')` used by `centerText`, `padRight`,
`truncate` and `drawBox` in `src/main.js`.  The state is the output built so
far paired with the pending candidate match (a proper left part of
`ESC [ [0-9;]* m`).  When a candidate fails, its characters are flushed to
the output; no character of a candidate except its head can itself start a
match, so this agrees with the regex scanner, which retries from the
position after a failed match start. -/
def stripStep : List Char × List Char → Char → List Char × List Char
  | (out, []), c => if c = escC then (out, [escC]) else (out ++ [c], [])
  | (out, [p]), c =>
      if c = '[' then (out, [p, c])
      else if c = escC then (out ++ [p], [escC])
      else (out ++ [p, c], [])
  | (out, p :: q :: r), c =>
      if c = 'm' then (out, [])
      else if isSpanBody c then (out, p :: q :: (r ++ [c]))
      else if c = escC then (out ++ (p :: q :: r), [escC])
      else (out ++ (p :: q :: r) ++ [c], [])

/-- The string with every `ESC [ [0-9;]* m` control span removed, as the
regex replacement in `src/main.js` does; a candidate still unfinished at the
end of the input is kept verbatim. -/
def stripAnsi (s : List Char) : List Char :=
  (s.foldl stripStep ([], [])).1 ++ (s.foldl stripStep ([], [])).2

/-- Number of printable units of a styled string: the length of the string
with recognized control spans stripped (`plain.length` in `src/main.js`). -/
def displayWidth (s : List Char) : ℕ := (stripAnsi s).length

/-- Decides whether a string is exactly one recognized control span
`ESC [ [0-9;]* m` (the body test via `spanBodyOk`). -/
def spanBodyOk : List Char → Bool
  | [] => false
  | [c] => c = 'm'
  | c :: rest => isSpanBody c && spanBodyOk rest

/-- A whole recognized control span: `ESC [ [0-9;]* m`. -/
def isSpan : List Char → Bool
  | c1 :: c2 :: rest => c1 = escC && c2 = '[' && spanBodyOk rest
  | _ => false

/-! ANSI helper sequences and the color palette of `src/main.js`. -/

def csi : List Char := [escC, '[']

def ansiReset : List Char := csi ++ "0m".toList

def ansiBold : List Char := csi ++ "1m".toList

/-- `ansi.fg(r, g, b)`: 24-bit foreground color sequence. -/
def fgSeq (r g b : ℕ) : List Char :=
  csi ++ ("38;2;" ++ toString r ++ ";" ++ toString g ++ ";" ++ toString b ++ "m").toList

def colTitle : List Char := fgSeq 215 105 70

def colLabel : List Char := fgSeq 180 180 200

def colValue : List Char := fgSeq 255 255 255

def colDim : List Char := fgSeq 120 100 95

def colGreen : List Char := fgSeq 120 220 150

def colYellow : List Char := fgSeq 230 200 100

def colRed : List Char := fgSeq 230 110 110

def colSeparator : List Char := fgSeq 75 45 38

/-- `colorForPercent(pct)` from `src/main.js`: green (the "ok" style) up to
50, yellow ("warn") up to 80, red ("danger") above. -/
def colorForPercent (pct : ℚ) : List Char :=
  if pct ≤ 50 then colGreen else if pct ≤ 80 then colYellow else colRed

/-- JS `Math.round`: round half toward positive infinity. -/
def jsRound (q : ℚ) : ℤ := ⌊q + 1 / 2⌋

/-- Rounding half away from zero, the rounding rule the spec names for
`progressBar`; agrees with `jsRound` on nonnegative inputs. -/
def roundHalfAway (q : ℚ) : ℤ := if 0 ≤ q then ⌊q + 1 / 2⌋ else ⌈q - 1 / 2⌉

/-- Number of filled cells of the progress bar:
`Math.round((percent / 100) * width)`. -/
def barFilled (percent : ℚ) (width : ℕ) : ℤ := jsRound (percent / 100 * width)

/-- `progressBar(percent, width)` from `src/main.js`: the filled cells in the
percent color, the remaining cells in the dim style, then a reset.
`Int.toNat` truncates the negative repeat counts on which JS `repeat` would
throw; the claims only concern `0 ≤ percent ≤ 100`, where both counts are
nonnegative and the translation is exact. -/
def progressBar (percent : ℚ) (width : ℕ) : List Char :=
  colorForPercent percent ++ List.replicate (barFilled percent width).toNat '█' ++
    colDim ++ List.replicate ((width : ℤ) - barFilled percent width).toNat '░' ++ ansiReset

/-- `formatPercent(pct)`; `render` always passes the integer
`Math.round(utilization)`, so the argument is modelled as `ℤ`. -/
def formatPercent (pct : ℤ) : List Char :=
  colorForPercent (pct : ℚ) ++ (toString pct).toList ++ "%".toList ++ ansiReset

/-- `formatDuration(ms)` from `src/main.js`.  In the source
`totalSec = Math.floor(ms / 1000)`, `hours = Math.floor(totalSec / 3600)`,
`minutes = Math.floor((totalSec % 3600) / 60)`; `ℕ` division is exactly
that flooring on the nonnegative inputs the caller supplies. -/
def formatDuration (ms : ℕ) : List Char :=
  if ms / 1000 / 3600 > 0 then
    (toString (ms / 1000 / 3600)).toList ++ "h".toList ++
      (if ms / 1000 % 3600 / 60 > 0 then (toString (ms / 1000 % 3600 / 60)).toList ++ "m".toList
       else [])
  else (toString (ms / 1000 % 3600 / 60)).toList ++ "m".toList

/-- The spec's formulation of `formatDuration`, deriving hours and minutes
directly from `ms`: `"{h}h{m}m"` when hours > 0 and minutes > 0, `"{h}h"`
when hours > 0 and minutes = 0, else `"{m}m"`. -/
def formatDurationSpec (ms : ℕ) : List Char :=
  if ms / 3600000 > 0 ∧ ms % 3600000 / 60000 > 0 then
    (toString (ms / 3600000)).toList ++ "h".toList ++
      (toString (ms % 3600000 / 60000)).toList ++ "m".toList
  else if ms / 3600000 > 0 then (toString (ms / 3600000)).toList ++ "h".toList
  else (toString (ms % 3600000 / 60000)).toList ++ "m".toList

/-- `formatResetTime(resetAt)`: the `resets_at` value is modelled already
parsed to an epoch timestamp in milliseconds (`new Date(resetAt).getTime()`);
`none` covers the falsy and unparseable inputs the source absorbs into the
empty string. -/
def formatResetTime (resetAt : Option ℤ) (now : ℤ) : List Char :=
  match resetAt with
  | none => []
  | some t => if t - now ≤ 0 then "now".toList else formatDuration (t - now).toNat

/-- `centerText(text, width)`: prefix padding computed from the stripped
length.  The source computes `Math.max(0, Math.floor((width - plain.length) / 2))`;
after the clamp to 0 any integer-division convention agrees with
`Math.floor`, since negative quotients are discarded. -/
def centerText (text : List Char) (width : ℤ) : List Char :=
  List.replicate (max 0 ((width - (displayWidth text : ℤ)) / 2)).toNat ' ' ++ text

/-- `padRight(text, width)` from `src/main.js` (the spec's `pad`): the text
followed by `Math.max(0, width - plain.length)` spaces. -/
def padRight (text : List Char) (width : ℤ) : List Char :=
  text ++ List.replicate (max 0 (width - (displayWidth text : ℤ))).toNat ' '

/-- `truncate(text, maxLen)` from `src/main.js`.  JS
`text.substring(0, maxLen - 3)` clamps a negative end index to 0 and an
oversized one to the length, which is exactly `List.take (maxLen - 3).toNat`. -/
def truncate (text : List Char) (maxLen : ℤ) : List Char :=
  if ((displayWidth text : ℤ) ≤ maxLen) then text
  else text.take (maxLen - 3).toNat ++ "...".toList

/-! Data model: `UsageWindow`, `UsageData` (the MetricsSnapshot), the
ViewModel state, and terminal dimensions. -/

/-- One rate-limit accounting window of the usage payload:
`{utilization, resets_at}`.  `resets_at` is modelled as an already parsed
epoch timestamp (see `formatResetTime`). -/
structure UsageWindow where
  utilization : ℚ
  resets_at : Option ℤ
deriving DecidableEq

/-- The object `fetchUsageLimits` resolves to: the three windows, each
possibly `null` (`?? null` in the source). -/
structure UsageData where
  five_hour : Option UsageWindow
  seven_day : Option UsageWindow
  seven_day_sonnet : Option UsageWindow
deriving DecidableEq

/-- The mutable `state` object created in `main()` of `src/main.js`.
`data` is `null` until a fetch completes and may be set to `null` again by a
failed fetch, hence `Option UsageData` with the fetch result itself already
an `Option`-typed field collapse: `state.data` holds the resolved value of
`fetchUsageLimits`, which is `null` on any failure. -/
structure DashState where
  loading : Bool
  error : Option (List Char)
  data : Option UsageData
  effort : List Char
  configPlan : List Char
  displayMode : List Char
  startTime : ℤ
  lastRefresh : Option ℤ
  refreshCount : ℕ
deriving DecidableEq

/-- Terminal dimensions (`termCols`/`termRows` globals). -/
structure TermSize where
  cols : ℤ
  rows : ℤ
deriving DecidableEq

/-- The initial state literal of `main()` (`startTime` modelled as 0, and
the config/effort defaults that `loadConfig`/`getEffortLevel` return on any
failure). -/
def initDash : DashState where
  loading := true
  error := none
  data := none
  effort := "high".toList
  configPlan := "max".toList
  displayMode := "detailed".toList
  startTime := 0
  lastRefresh := none
  refreshCount := 0

/-! View assembly: the pure construction of the `lines` array in `render`
(`src/main.js` lines 248-370), before `drawBox` and painting. -/

/-- `drawSeparator(width)` from `src/main.js`. -/
def drawSeparator (width : ℤ) : List Char :=
  colSeparator ++ List.replicate (width - 2).toNat '─' ++ ansiReset

/-- The effort abbreviation: `effortMap[state.effort] || 'H'`. -/
def effortLabel (effort : List Char) : List Char :=
  if effort = "high".toList then ['H']
  else if effort = "medium".toList then ['M']
  else if effort = "low".toList then ['L']
  else ['H']

/-- The three lines pushed unconditionally at the top of `render`: blank,
centered title, blank. -/
def titleLines (width : ℤ) : List (List Char) :=
  [[],
   centerText (colTitle ++ ansiBold ++ " Claude Dashboard ".toList ++ ansiReset ++
     colDim ++ "v1.0.1".toList ++ ansiReset) width,
   []]

/-- One rate-limit line of the "Rate Limits" section: label, 25-cell
progress bar, formatted percent, parenthesized countdown when a reset time
is present (`src/main.js` lines 286-316). -/
def windowLine (label : List Char) (w : UsageWindow) (now : ℤ) : List Char :=
  "  ".toList ++ colLabel ++ label ++ ansiReset ++
    progressBar ((jsRound w.utilization : ℤ) : ℚ) 25 ++ "  ".toList ++
    formatPercent (jsRound w.utilization) ++
    (if formatResetTime w.resets_at now = [] then []
     else colDim ++ "  (".toList ++ formatResetTime w.resets_at now ++ ")".toList ++ ansiReset)

/-- The "no data" line pushed when all three windows are absent. -/
def noDataLine : List Char :=
  "  ".toList ++ colDim ++ "No rate limit data available".toList ++ ansiReset

/-- The body of the "Rate Limits" section (`src/main.js` lines 284-324):
with a snapshot, one line per present window in source order, then the
"no data" line if all three are absent; with `data == null`, the two
"failed to fetch" hint lines. -/
def rateLimitLines (data : Option UsageData) (now : ℤ) : List (List Char) :=
  match data with
  | some d =>
      (match d.five_hour with
       | some w => [windowLine "5h   ".toList w now]
       | none => []) ++
      (match d.seven_day with
       | some w => [windowLine "7d   ".toList w now]
       | none => []) ++
      (match d.seven_day_sonnet with
       | some w => [windowLine "7d-S ".toList w now]
       | none => []) ++
      (if d.five_hour = none ∧ d.seven_day = none ∧ d.seven_day_sonnet = none then [noDataLine]
       else [])
  | none =>
      ["  ".toList ++ colYellow ++ "Failed to fetch rate limits".toList ++ ansiReset,
       "  ".toList ++ colDim ++ "Check ~/.claude/.credentials.json".toList ++ ansiReset]

/-- The lines of the data branch before the rate-limit window lines: the
model/effort line, a blank, the "Rate Limits" heading and its separator
(`src/main.js` lines 272-282). -/
def preRateLines (st : DashState) (width : ℤ) : List (List Char) :=
  ["  ".toList ++ colLabel ++ "Model: ".toList ++ ansiReset ++ colValue ++ ansiBold ++
     (if st.effort ≠ "high".toList then "[".toList ++ effortLabel st.effort ++ "] ".toList
      else []) ++ "Claude".toList ++ ansiReset,
   [],
   "  ".toList ++ colTitle ++ ansiBold ++ "Rate Limits".toList ++ ansiReset,
   "  ".toList ++ drawSeparator (width - 3)]

/-- The lines of the data branch after the rate-limit section: Session,
Account and keyboard-hint blocks (`src/main.js` lines 326-367). -/
def postRateLines (st : DashState) (width : ℤ) (now : ℤ) : List (List Char) :=
  [[],
   "  ".toList ++ colTitle ++ ansiBold ++ "Session".toList ++ ansiReset,
   "  ".toList ++ drawSeparator (width - 3),
   "  ".toList ++ colLabel ++ "Uptime: ".toList ++ ansiReset ++ colValue ++
     formatDuration (now - st.startTime).toNat ++ ansiReset ++ colDim ++ "  |  ".toList ++
     ansiReset ++ colLabel ++ "Refreshes: ".toList ++ ansiReset ++ colValue ++
     (toString st.refreshCount).toList ++ ansiReset] ++
  (match st.lastRefresh with
   | some t =>
       ["  ".toList ++ colLabel ++ "Last update: ".toList ++ ansiReset ++ colDim ++
         (toString ((now - t) / 1000)).toList ++ "s ago".toList ++ ansiReset]
   | none => []) ++
  [[],
   "  ".toList ++ colTitle ++ ansiBold ++ "Account".toList ++ ansiReset,
   "  ".toList ++ drawSeparator (width - 3),
   "  ".toList ++ colLabel ++ "Plan: ".toList ++ ansiReset ++ colValue ++
     (if st.configPlan = "max".toList then "Max".toList else "Pro".toList) ++ ansiReset,
   [],
   "  ".toList ++ drawSeparator (width - 3),
   "  ".toList ++ colDim ++
     "[r] Refresh  [ESC] Close  [1] Compact  [2] Normal  [3] Detailed".toList ++ ansiReset]

/-- The full content-lines sequence `render` assembles before boxing and
painting (`src/main.js` lines 248-370): title block, then the error branch,
the loading branch, or the data branch, then a final blank line. -/
def viewLines (st : DashState) (ts : TermSize) (now : ℤ) : List (List Char) :=
  titleLines (min ts.cols 72) ++
    (match st.error with
     | some e =>
         [centerText (colRed ++ e ++ ansiReset) (min ts.cols 72),
          [],
          centerText (colDim ++ "[r] Refresh  [ESC] Close".toList ++ ansiReset) (min ts.cols 72)]
     | none =>
         if st.loading then
           [centerText (colDim ++ "Loading...".toList ++ ansiReset) (min ts.cols 72)]
         else
           preRateLines st (min ts.cols 72) ++ rateLimitLines st.data now ++
             postRateLines st (min ts.cols 72) now) ++
    [[]]

/-- Spec-side description of the rate-limit slots: the present windows with
their labels, in the fixed order five-hour, seven-day, seven-day-secondary,
absent windows skipped. -/
def orderedWindows (d : UsageData) : List (List Char × UsageWindow) :=
  [("5h   ".toList, d.five_hour), ("7d   ".toList, d.seven_day),
   ("7d-S ".toList, d.seven_day_sonnet)].filterMap
    (fun p => Option.map (fun w => (p.1, w)) p.2)

/-! Refresh controller: the event-driven semantics of `refresh()`
(`src/main.js` lines 416-440) and its three trigger sites (startup call,
60-second timer, `r`/`R` keypress).  A call of `refresh()` runs
synchronously to its first `await`; the `await getCredentials()` and
`await fetchUsageLimits(token)` suspension points are modelled by counting
the invocations suspended at each, and the resolution of either suspension
is a separate event.  Neither collaborator ever throws (each catches
internally and resolves `null`), so the `catch` branch of `refresh` is
unreachable and not modelled. -/

/-- The full system state of the refresh machinery: the ViewModel plus the
multiset of suspended `refresh()` invocations (they carry no distinguishing
data, so counts suffice), the number of `fetchUsageLimits` calls made, and
the number of repaints requested. -/
structure Sys where
  st : DashState
  awaitingCred : ℕ
  awaitingFetch : ℕ
  fetchCalls : ℕ
  renders : ℕ
deriving DecidableEq

/-- Number of in-flight refresh cycles: invocations of `refresh()` that have
started and not yet returned. -/
def inFlight (s : Sys) : ℕ := s.awaitingCred + s.awaitingFetch

/-- The error message of the no-credentials path. -/
def noCredsMsg : List Char := "No credentials found".toList

/-- Events of the refresh machinery. -/
inductive REvent where
  | trigger
  | credNone
  | credSome
  | fetchDone (d : Option UsageData) (now : ℤ)
deriving DecidableEq

def REvent.isTrigger : REvent → Bool
  | .trigger => true
  | _ => false

def REvent.isCredNone : REvent → Bool
  | .credNone => true
  | _ => false

def REvent.isCredSome : REvent → Bool
  | .credSome => true
  | _ => false

def REvent.isFetch : REvent → Bool
  | .fetchDone _ _ => true
  | _ => false

/-- One event of the refresh machinery, as the source implements it.

`trigger` is any call of `refresh()` — the startup call, the 60-second
`setInterval` tick, or the `r`/`R` key handler; the source guards none of
them, so a trigger always runs lines 417-419 (`loading = true`,
`error = null`, `render`) and suspends at `await getCredentials()`.

`credNone` resolves a suspended credential lookup with `null` (lines
423-428): set the error, clear `loading`, repaint, return — without calling
`fetchUsageLimits`.

`credSome` resolves a credential lookup with a token and invokes
`fetchUsageLimits` (line 429), suspending there.

`fetchDone d now` resolves a fetch with `d` (which is `null` on any fetch
failure): lines 430-434 store the data, clear `loading`, stamp
`lastRefresh`, increment `refreshCount`, repaint. -/
inductive RStep : REvent → Sys → Sys → Prop
  | trigger (s : Sys) :
      RStep .trigger s
        { s with st := { s.st with loading := true, error := none },
                 awaitingCred := s.awaitingCred + 1,
                 renders := s.renders + 1 }
  | credNone (s : Sys) (h : 0 < s.awaitingCred) :
      RStep .credNone s
        { s with st := { s.st with error := some noCredsMsg, loading := false },
                 awaitingCred := s.awaitingCred - 1,
                 renders := s.renders + 1 }
  | credSome (s : Sys) (h : 0 < s.awaitingCred) :
      RStep .credSome s
        { s with awaitingCred := s.awaitingCred - 1,
                 awaitingFetch := s.awaitingFetch + 1,
                 fetchCalls := s.fetchCalls + 1 }
  | fetchDone (s : Sys) (d : Option UsageData) (now : ℤ) (h : 0 < s.awaitingFetch) :
      RStep (.fetchDone d now) s
        { s with st :=
            { s.st with data := d, loading := false, lastRefresh := some now,
                        refreshCount := s.st.refreshCount + 1 },
                 awaitingFetch := s.awaitingFetch - 1,
                 renders := s.renders + 1 }

/-- A finite run of the refresh machinery. -/
inductive Run : Sys → List REvent → Sys → Prop
  | nil (s : Sys) : Run s [] s
  | cons {e : REvent} {s t u : Sys} {es : List REvent} :
      RStep e s t → Run t es u → Run s (e :: es) u

/-! Host channel: the stdin data handler (`src/main.js` lines 460-497),
restricted to the envelope branch the claims concern. -/

/-- The parameters object of a parsed host envelope; a field is `none` when
absent.  A present value of `0` is falsy in `json.params.cols || termCols`,
which the model checks explicitly. -/
structure RpcParams where
  cols : Option ℤ
  rows : Option ℤ
deriving DecidableEq

/-- A parsed host envelope (`JSON.parse` result): `method` and `params` are
`none` when the field is absent or `null`. -/
structure RpcMsg where
  method : Option (List Char)
  params : Option RpcParams
deriving DecidableEq

/-- The 12-character sentinel prefix of host envelopes. -/
def rpcSentinel : List Char := "__HECA_RPC__".toList

/-- The resize assignment `termCols = json.params.cols || termCols;
termRows = json.params.rows || termRows`: a missing or zero (falsy) field
keeps the prior value. -/
def applyResize (ts : TermSize) (p : RpcParams) : TermSize where
  cols := match p.cols with
    | some c => if c = 0 then ts.cols else c
    | none => ts.cols
  rows := match p.rows with
    | some r => if r = 0 then ts.rows else r
    | none => ts.rows

/-- The stdin handler's envelope classification and resize handling
(`src/main.js` lines 460-472).  `parse` abstracts
`JSON.parse(key.slice(12).trim())`, resolving `none` when parsing throws.
The result is the terminal-dimension state, whether a repaint was requested,
and the chunk forwarded to keyboard dispatch when it is not an envelope.
The function is total: malformed envelopes change nothing and never fail. -/
def handleChunk (parse : List Char → Option RpcMsg) (ts : TermSize) (chunk : List Char) :
    TermSize × Bool × Option (List Char) :=
  if chunk.take 12 = rpcSentinel then
    match parse (chunk.drop 12) with
    | some msg =>
        match msg.method, msg.params with
        | some m, some p =>
            if m = "resize".toList then (applyResize ts p, true, none)
            else (ts, false, none)
        | _, _ => (ts, false, none)
    | none => (ts, false, none)
  else (ts, false, some chunk)

/-! The relation for the amended C8: a styled string built over a base
string by plain characters, shared recognized spans, and inserted recognized
spans — insertions at positions that do not split a span. -/

/-- `Styled t s`: `t` is `s` with recognized control spans inserted at
span-respecting positions (`ins`); `chr` copies a plain character, `keep`
copies a span already present in `s`. -/
inductive Styled : List Char → List Char → Prop
  | nil : Styled [] []
  | chr {t s : List Char} (c : Char) : c ≠ escC → Styled t s → Styled (c :: t) (c :: s)
  | keep {t s : List Char} (sp : List Char) : isSpan sp = true → Styled t s →
      Styled (sp ++ t) (sp ++ s)
  | ins {t s : List Char} (sp : List Char) : isSpan sp = true → Styled t s →
      Styled (sp ++ t) s

/-! Shared lemmas about the stripping scanner. -/

/-- The output component of the scanner state is only ever appended to. -/
theorem stripStep_out (out pend : List Char) (c : Char) :
    stripStep (out, pend) c =
      (out ++ (stripStep ([], pend) c).1, (stripStep ([], pend) c).2) := by
  rcases pend with _ | ⟨p, _ | ⟨q, r⟩⟩ <;> simp only [stripStep] <;> split_ifs <;> simp

/-- Folding the scanner from an arbitrary accumulated output. -/
theorem foldl_stripStep_out (l : List Char) :
    ∀ out pend, List.foldl stripStep (out, pend) l =
      (out ++ (List.foldl stripStep ([], pend) l).1,
        (List.foldl stripStep ([], pend) l).2) := by
  induction l with
  | nil => intro out pend; simp
  | cons c cs ih =>
      intro out pend
      rw [List.foldl_cons, List.foldl_cons, stripStep_out out pend c]
      rcases h : stripStep ([], pend) c with ⟨a, p2⟩
      simp only [h]
      rw [ih (out ++ a) p2, ih a p2]
      simp [List.append_assoc]

/-- Escape-free text passes through the scanner verbatim. -/
theorem foldl_stripStep_plain (p : List Char) :
    ∀ out, escC ∉ p → List.foldl stripStep (out, []) p = (out ++ p, []) := by
  induction p with
  | nil => intro out _; simp
  | cons c cs ih =>
      intro out hp
      rw [List.mem_cons] at hp
      push_neg at hp
      have hc : ¬ c = escC := fun h => hp.1 h.symm
      rw [List.foldl_cons]
      simp only [stripStep, if_neg hc]
      rw [ih (out ++ [c]) hp.2]
      simp

/-- Stripping distributes over an escape-free prefix. -/
theorem stripAnsi_plain_append (p l : List Char) (hp : escC ∉ p) :
    stripAnsi (p ++ l) = p ++ stripAnsi l := by
  unfold stripAnsi
  rw [List.foldl_append, foldl_stripStep_plain p [] hp,
    foldl_stripStep_out l ([] ++ p) []]
  simp [List.append_assoc]

/-- The scanner consumes a whole recognized span body ending in `m` without
touching the output. -/
theorem foldl_stripStep_span (rest : List Char) (h : spanBodyOk rest = true) :
    ∀ out ds, List.foldl stripStep (out, escC :: '[' :: ds) rest = (out, []) := by
  induction rest with
  | nil => simp [spanBodyOk] at h
  | cons c cs ih =>
      intro out ds
      cases cs with
      | nil =>
          have hc : c = 'm' := by simpa [spanBodyOk] using h
          subst hc
          simp [stripStep]
      | cons c2 cs2 =>
          have h2 : isSpanBody c = true ∧ spanBodyOk (c2 :: cs2) = true := by
            simpa [spanBodyOk, Bool.and_eq_true] using h
          have hcm : ¬ c = 'm' := by
            intro e; subst e; exact absurd h2.1 (by decide)
          rw [List.foldl_cons]
          simp only [stripStep, if_neg hcm, h2.1, if_true]
          exact ih h2.2 out (ds ++ [c])

/-- A recognized control span prepended to any string is removed whole. -/
theorem stripAnsi_span_append (sp l : List Char) (h : isSpan sp = true) :
    stripAnsi (sp ++ l) = stripAnsi l := by
  rcases sp with _ | ⟨c1, _ | ⟨c2, rest⟩⟩
  · simp [isSpan] at h
  · simp [isSpan] at h
  · have h3 : (c1 = escC ∧ c2 = '[') ∧ spanBodyOk rest = true := by
      simpa [isSpan, Bool.and_eq_true, decide_eq_true_eq] using h
    obtain ⟨⟨h1, h2⟩, hb⟩ := h3
    subst h1; subst h2
    unfold stripAnsi
    simp only [List.cons_append]
    rw [List.foldl_cons, List.foldl_cons]
    have e1 : stripStep ([], []) escC = ([], [escC]) := by simp [stripStep]
    have e2 : stripStep ([], [escC]) '[' = ([], [escC, '[']) := by simp [stripStep]
    rw [e1, e2, List.foldl_append, foldl_stripStep_span rest hb [] []]

/-- A recognized control span on its own strips to nothing. -/
theorem stripAnsi_span (sp : List Char) (h : isSpan sp = true) : stripAnsi sp = [] := by
  have h2 := stripAnsi_span_append sp [] h
  simpa using h2

/-- A space always flushes the pending candidate and lands in the output. -/
theorem stripStep_space (out pend : List Char) :
    stripStep (out, pend) ' ' = (out ++ pend ++ [' '], []) := by
  rcases pend with _ | ⟨p, _ | ⟨q, r⟩⟩ <;>
    simp [stripStep, escC, isSpanBody, List.append_assoc]

/-- Appending spaces appends them to the stripped string, whatever pending
candidate the prefix left behind. -/
theorem stripAnsi_append_spaces (s : List Char) (k : ℕ) :
    stripAnsi (s ++ List.replicate k ' ') = stripAnsi s ++ List.replicate k ' ' := by
  cases k with
  | zero => simp
  | succ n =>
      unfold stripAnsi
      rw [List.foldl_append]
      rcases hf : List.foldl stripStep ([], []) s with ⟨out, pend⟩
      rw [List.replicate_succ, List.foldl_cons, stripStep_space out pend]
      have hv : escC ∉ List.replicate n ' ' := by
        intro hm
        exact absurd (List.eq_of_mem_replicate hm) (by decide)
      rw [foldl_stripStep_plain (List.replicate n ' ') (out ++ pend ++ [' ']) hv]
      simp [List.replicate_succ, List.append_assoc]

/-- Bounds on the filled-cell count of the progress bar. -/
theorem barFilled_nonneg (pct : ℚ) (w : ℕ) (h0 : 0 ≤ pct) : 0 ≤ barFilled pct w := by
  unfold barFilled jsRound
  apply Int.le_floor.mpr
  have hd : (0:ℚ) ≤ pct / 100 := div_nonneg h0 (by norm_num)
  have h1 : (0:ℚ) ≤ pct / 100 * w := mul_nonneg hd (by positivity)
  push_cast
  linarith

/-- The filled-cell count never exceeds the width when `pct ≤ 100`. -/
theorem barFilled_le (pct : ℚ) (w : ℕ) (h1 : pct ≤ 100) : barFilled pct w ≤ (w : ℤ) := by
  unfold barFilled jsRound
  have h2 : pct / 100 ≤ 1 := by
    rw [div_le_one (by norm_num : (0:ℚ) < 100)]
    exact h1
  have hq : pct / 100 * w ≤ (w : ℚ) := by
    calc pct / 100 * w ≤ 1 * w := mul_le_mul_of_nonneg_right h2 (by positivity)
      _ = w := one_mul _
  have h3 : (⌊pct / 100 * (w : ℚ) + 1 / 2⌋ : ℤ) < (w : ℤ) + 1 := by
    apply Int.floor_lt.mpr
    push_cast
    linarith
  omega

/-- The stripped progress bar is exactly the filled blocks followed by the
empty shade cells. -/
theorem stripAnsi_progressBar (pct : ℚ) (w : ℕ) :
    stripAnsi (progressBar pct w) =
      List.replicate (barFilled pct w).toNat '█' ++
        List.replicate ((w : ℤ) - barFilled pct w).toNat '░' := by
  unfold progressBar
  have hcol : isSpan (colorForPercent pct) = true := by
    unfold colorForPercent
    split_ifs <;> decide
  have hblocks : escC ∉ List.replicate (barFilled pct w).toNat '█' := by
    intro hm
    exact absurd (List.eq_of_mem_replicate hm) (by decide)
  have hshades : escC ∉ List.replicate ((w : ℤ) - barFilled pct w).toNat '░' := by
    intro hm
    exact absurd (List.eq_of_mem_replicate hm) (by decide)
  simp only [List.append_assoc]
  rw [stripAnsi_span_append _ _ hcol, stripAnsi_plain_append _ _ hblocks,
    stripAnsi_span_append _ _ (by decide : isSpan colDim = true),
    stripAnsi_plain_append _ _ hshades, stripAnsi_span ansiReset (by decide)]
  simp

/-! Claim theorems. -/

/-- C4: `formatDuration(ms)` is `"{h}h{m}m"` when hours > 0 and minutes > 0,
`"{h}h"` when hours > 0 and minutes = 0, and `"{m}m"` when hours = 0
(minutes always present, including `"0m"`), with hours and minutes derived
directly from `ms`; in particular `formatDuration 0 = "0m"`,
`formatDuration 3600000 = "1h"`, `formatDuration 5400000 = "1h30m"` and
`formatDuration 59000 = "0m"`.  The precondition `ms ≥ 0` is encoded by the
`ℕ` domain. -/
theorem formatDuration_shape :
    (∀ ms : ℕ, formatDuration ms = formatDurationSpec ms) ∧
      formatDuration 0 = "0m".toList ∧ formatDuration 3600000 = "1h".toList ∧
      formatDuration 5400000 = "1h30m".toList ∧ formatDuration 59000 = "0m".toList := by
  refine ⟨?_, by decide, by decide, by decide, by decide⟩
  intro ms
  have h1 : ms / 1000 / 3600 = ms / 3600000 := by omega
  have h2 : ms / 1000 % 3600 / 60 = ms % 3600000 / 60000 := by omega
  rw [formatDuration, formatDurationSpec, h1, h2]
  rcases Nat.eq_zero_or_pos (ms / 3600000) with hh | hh <;>
    rcases Nat.eq_zero_or_pos (ms % 3600000 / 60000) with hm | hm <;>
      simp [hh, hm, Nat.pos_iff_ne_zero, List.append_assoc]

/-- C9: `colorForPercent` maps `pct ≤ 50` to the green "ok" style,
`50 < pct ≤ 80` to the yellow "warn" style and `pct > 80` to the red
"danger" style; it is pure and total on all of `ℚ` and never clamps: the
same thresholds decide the color for inputs outside `[0, 100]`. -/
theorem colorForPercent_thresholds (pct : ℚ) :
    (pct ≤ 50 → colorForPercent pct = colGreen) ∧
      (50 < pct → pct ≤ 80 → colorForPercent pct = colYellow) ∧
      (80 < pct → colorForPercent pct = colRed) := by
  refine ⟨fun h => ?_, fun h1 h2 => ?_, fun h => ?_⟩ <;>
    unfold colorForPercent <;> split_ifs <;> first | rfl | linarith

/-- Witness for C9 at concrete inputs, including out-of-range ones. -/
theorem colorForPercent_thresholds_witness :
    colorForPercent 30 = colGreen ∧ colorForPercent 60 = colYellow ∧
      colorForPercent 90 = colRed ∧ colorForPercent 150 = colRed ∧
      colorForPercent (-10) = colGreen :=
  ⟨(colorForPercent_thresholds 30).1 (by norm_num),
   (colorForPercent_thresholds 60).2.1 (by norm_num) (by norm_num),
   (colorForPercent_thresholds 90).2.2 (by norm_num),
   (colorForPercent_thresholds 150).2.2 (by norm_num),
   (colorForPercent_thresholds (-10)).1 (by norm_num)⟩

/-- C10: `truncate` is total for every `maxLen`; when the visible (stripped)
length exceeds `maxLen` and `maxLen < 4`, the substring end index
`maxLen - 3` is clamped to 0 rather than producing a negative slice, so the
result is exactly the three-character string `"..."`. -/
theorem truncate_small_maxLen (text : List Char) (maxLen : ℤ)
    (h4 : maxLen < 4) (hlen : maxLen < (displayWidth text : ℤ)) :
    truncate text maxLen = "...".toList := by
  unfold truncate
  rw [if_neg (by omega)]
  have h0 : (maxLen - 3).toNat = 0 := by omega
  rw [h0]
  simp

/-- Witness for C10: truncating `"hello"` (visible length 5) to width 2
yields `"..."`. -/
theorem truncate_small_maxLen_witness :
    (2 : ℤ) < 4 ∧ (2 : ℤ) < (displayWidth "hello".toList : ℤ) ∧
      truncate "hello".toList 2 = "...".toList :=
  ⟨by norm_num, by decide,
   truncate_small_maxLen "hello".toList 2 (by norm_num) (by decide)⟩

/-- C7: `padRight s w` (the spec's `pad`) is `s` followed by
`max(0, w - displayWidth s)` spaces; consequently its display width is
`max w (displayWidth s)` and `s` is an initial segment of the result. -/
theorem padRight_extension (s : List Char) (w : ℤ) :
    padRight s w = s ++ List.replicate (max 0 (w - (displayWidth s : ℤ))).toNat ' ' ∧
      (displayWidth (padRight s w) : ℤ) = max w (displayWidth s) ∧
      (padRight s w).take s.length = s := by
  refine ⟨rfl, ?_, ?_⟩
  · unfold padRight displayWidth
    rw [stripAnsi_append_spaces]
    simp only [List.length_append, List.length_replicate]
    omega
  · unfold padRight
    exact List.take_left _ _

/-- C3: for `0 ≤ pct ≤ 100` and any width, `progressBar pct width` is the
percent-color style, `round(pct/100·width)` filled cells — rounding half
away from zero — the dim style, the remaining `width - round(pct/100·width)`
empty cells and a reset; and its display width is exactly `width`. -/
theorem progressBar_cells (pct : ℚ) (w : ℕ) (h0 : 0 ≤ pct) (h1 : pct ≤ 100) :
    progressBar pct w =
      colorForPercent pct ++
        List.replicate (roundHalfAway (pct / 100 * w)).toNat '█' ++ colDim ++
        List.replicate (w - (roundHalfAway (pct / 100 * w)).toNat) '░' ++ ansiReset ∧
      displayWidth (progressBar pct w) = w := by
  have hr : roundHalfAway (pct / 100 * w) = barFilled pct w := by
    unfold roundHalfAway barFilled jsRound
    rw [if_pos]
    exact mul_nonneg (div_nonneg h0 (by norm_num)) (by positivity)
  have hb0 := barFilled_nonneg pct w h0
  have hbw := barFilled_le pct w h1
  constructor
  · rw [hr]
    unfold progressBar
    have he : ((w : ℤ) - barFilled pct w).toNat = w - (barFilled pct w).toNat := by omega
    rw [he]
  · unfold displayWidth
    rw [stripAnsi_progressBar]
    simp only [List.length_append, List.length_replicate]
    omega

/-- Witness for C3 at `(50, 20)`, `(0, 20)` and `(100, 20)`, together with
the filled-cell counts 10, 0 and 20 the claim names. -/
theorem progressBar_cells_witness :
    ((0:ℚ) ≤ 50 ∧ (50:ℚ) ≤ 100 ∧ displayWidth (progressBar 50 20) = 20) ∧
      ((0:ℚ) ≤ 0 ∧ (0:ℚ) ≤ 100 ∧ displayWidth (progressBar 0 20) = 20) ∧
      ((0:ℚ) ≤ 100 ∧ (100:ℚ) ≤ 100 ∧ displayWidth (progressBar 100 20) = 20) ∧
      roundHalfAway ((50:ℚ) / 100 * (20:ℕ)) = 10 ∧
      roundHalfAway ((0:ℚ) / 100 * (20:ℕ)) = 0 ∧
      roundHalfAway ((100:ℚ) / 100 * (20:ℕ)) = 20 :=
  ⟨⟨by norm_num, by norm_num, (progressBar_cells 50 20 (by norm_num) (by norm_num)).2⟩,
   ⟨by norm_num, by norm_num, (progressBar_cells 0 20 (by norm_num) (by norm_num)).2⟩,
   ⟨by norm_num, by norm_num, (progressBar_cells 100 20 (by norm_num) (by norm_num)).2⟩,
   by norm_num [roundHalfAway], by norm_num [roundHalfAway], by norm_num [roundHalfAway]⟩

/-- A plain character prepended to any string passes through the stripper. -/
theorem stripAnsi_cons_plain (c : Char) (l : List Char) (hc : c ≠ escC) :
    stripAnsi (c :: l) = c :: stripAnsi l := by
  have hm : escC ∉ [c] := by
    simp only [List.mem_singleton]
    exact fun h => hc h.symm
  have h := stripAnsi_plain_append [c] l hm
  simpa using h

/-- C8 counterexample: `displayWidth` is not invariant under insertion of a
recognized control span at an arbitrary position.  Inserting the recognized
span `"\x1b[0m"` at position 2 of `"\x1b[m"` splits the existing span: the
display width changes from 0 to 3. -/
theorem displayWidth_insert_counterexample :
    isSpan ansiReset = true ∧
      displayWidth [escC, '[', 'm'] = 0 ∧
      List.take 2 [escC, '[', 'm'] ++ ansiReset ++ List.drop 2 [escC, '[', 'm'] =
        [escC, '['] ++ ansiReset ++ ['m'] ∧
      displayWidth
        (List.take 2 [escC, '[', 'm'] ++ ansiReset ++ List.drop 2 [escC, '[', 'm']) = 3 :=
  ⟨by decide, by decide, by decide, by decide⟩

/-- C8 amended: `displayWidth` counts printable units only and is invariant
under insertion of any number of recognized control spans at positions that
do not split an existing span: whenever `Styled t s` — `t` is `s` with
spans inserted at span-respecting positions — the display widths agree.
(The counterexample shows the original claim fails for an insertion that
splits a span.) -/
theorem displayWidth_styled (t s : List Char) (h : Styled t s) :
    displayWidth t = displayWidth s := by
  induction h with
  | nil => rfl
  | chr c hc _ ih =>
      unfold displayWidth at ih ⊢
      rw [stripAnsi_cons_plain c _ hc, stripAnsi_cons_plain c _ hc]
      simp [ih]
  | keep sp hsp _ ih =>
      unfold displayWidth at ih ⊢
      rw [stripAnsi_span_append _ _ hsp, stripAnsi_span_append _ _ hsp]
      exact ih
  | ins sp hsp _ ih =>
      unfold displayWidth at ih ⊢
      rw [stripAnsi_span_append _ _ hsp]
      exact ih

/-- Witness for the amended C8: `'A' ++ reset-span ++ 'B'` is a styled
version of `"AB"` and has the same display width. -/
theorem displayWidth_styled_witness :
    Styled ('A' :: (ansiReset ++ ['B'])) ['A', 'B'] ∧
      displayWidth ('A' :: (ansiReset ++ ['B'])) = displayWidth ['A', 'B'] := by
  have hst : Styled ('A' :: (ansiReset ++ ['B'])) ['A', 'B'] :=
    Styled.chr 'A' (by decide)
      (Styled.ins ansiReset (by decide) (Styled.chr 'B' (by decide) Styled.nil))
  exact ⟨hst, displayWidth_styled _ _ hst⟩

/-- The three sequential conditionals of the rate-limit section equal the
ordered filter over the fixed slots, with the "no data" line exactly when
all three windows are absent. -/
theorem rateLimitLines_ordered (d : UsageData) (now : ℤ) :
    rateLimitLines (some d) now =
      if orderedWindows d = [] then [noDataLine]
      else (orderedWindows d).map (fun p => windowLine p.1 p.2 now) := by
  rcases d with ⟨_ | w5, _ | w7, _ | ws⟩ <;>
    simp [rateLimitLines, orderedWindows]

/-- C2: with `error` unset, `loading` false and a non-null snapshot, the
view assembly renders exactly the present usage windows, one rate-limit
line each, in the fixed slot order five-hour, seven-day,
seven-day-secondary, skipping absent windows — and a single "no data" line
instead when all three are absent; absence is never rendered as a zero
bar. -/
theorem view_rate_limit_slots (st : DashState) (ts : TermSize) (now : ℤ)
    (he : st.error = none) (hl : st.loading = false)
    (d : UsageData) (hd : st.data = some d) :
    viewLines st ts now =
      titleLines (min ts.cols 72) ++ preRateLines st (min ts.cols 72) ++
        (if orderedWindows d = [] then [noDataLine]
         else (orderedWindows d).map (fun p => windowLine p.1 p.2 now)) ++
        postRateLines st (min ts.cols 72) now ++ [[]] := by
  simp only [viewLines, he, hl, hd]
  rw [rateLimitLines_ordered]
  simp [List.append_assoc]

def sevenOnlyWindow : UsageWindow := { utilization := 42, resets_at := none }

def sevenOnlyData : UsageData :=
  { five_hour := none, seven_day := some sevenOnlyWindow, seven_day_sonnet := none }

def sevenOnlyState : DashState :=
  { initDash with loading := false, data := some sevenOnlyData }

/-- Witness for C2: a snapshot with only the seven-day window present
renders exactly one rate-limit line, in its fixed slot. -/
theorem view_rate_limit_slots_witness :
    sevenOnlyState.error = none ∧ sevenOnlyState.loading = false ∧
      sevenOnlyState.data = some sevenOnlyData ∧
      orderedWindows sevenOnlyData = [("7d   ".toList, sevenOnlyWindow)] ∧
      viewLines sevenOnlyState ⟨80, 24⟩ 0 =
        titleLines (min (80 : ℤ) 72) ++ preRateLines sevenOnlyState (min (80 : ℤ) 72) ++
          (if orderedWindows sevenOnlyData = [] then [noDataLine]
           else (orderedWindows sevenOnlyData).map (fun p => windowLine p.1 p.2 0)) ++
          postRateLines sevenOnlyState (min (80 : ℤ) 72) 0 ++ [[]] :=
  ⟨rfl, rfl, rfl, by decide,
   view_rate_limit_slots sevenOnlyState ⟨80, 24⟩ 0 rfl rfl sevenOnlyData rfl⟩

def demoSys : Sys :=
  { st := initDash, awaitingCred := 0, awaitingFetch := 0, fetchCalls := 0, renders := 0 }

def demoSys1 : Sys :=
  { st := { initDash with loading := true, error := none },
    awaitingCred := 1, awaitingFetch := 0, fetchCalls := 0, renders := 1 }

def demoSys2 : Sys :=
  { st := { initDash with loading := true, error := none },
    awaitingCred := 2, awaitingFetch := 0, fetchCalls := 0, renders := 2 }

/-- C1 counterexample: the source guards none of the trigger sites, so a
trigger arriving while a refresh is already in flight is not a no-op — it
starts a second concurrent cycle.  Two consecutive triggers from the idle
initial state reach a state with two refreshes in flight. -/
theorem refresh_overlap_counterexample :
    RStep .trigger demoSys demoSys1 ∧ RStep .trigger demoSys1 demoSys2 ∧
      inFlight demoSys2 = 2 ∧ ¬ inFlight demoSys2 ≤ 1 :=
  ⟨RStep.trigger demoSys, RStep.trigger demoSys1, by decide, by decide⟩

/-- C1 amended: there is no overlap guard — every trigger (manual keypress,
timer tick or the startup call) unconditionally starts a refresh cycle, so
along any run the in-flight count grows by one per trigger and shrinks by
one per completed cycle (no-credential return or fetch completion) and can
exceed one; `refreshCount` increases by exactly 1 per completed fetch
cycle, never on a trigger and not on the no-credential path. -/
theorem run_refresh_accounting (s : Sys) (es : List REvent) (u : Sys) (h : Run s es u) :
    u.st.refreshCount = s.st.refreshCount + es.countP REvent.isFetch ∧
      inFlight u + es.countP REvent.isCredNone + es.countP REvent.isFetch =
        inFlight s + es.countP REvent.isTrigger ∧
      u.fetchCalls = s.fetchCalls + es.countP REvent.isCredSome := by
  induction h with
  | nil => simp
  | cons hstep _ ih =>
      cases hstep <;>
        simp [List.countP_cons, REvent.isFetch, REvent.isCredNone, REvent.isTrigger,
          REvent.isCredSome, inFlight] at ih ⊢ <;>
        omega

def demoSys3 : Sys :=
  { st := { initDash with loading := true, error := none },
    awaitingCred := 1, awaitingFetch := 1, fetchCalls := 1, renders := 2 }

def demoSys4 : Sys :=
  { st := { initDash with loading := false, error := some noCredsMsg },
    awaitingCred := 0, awaitingFetch := 1, fetchCalls := 1, renders := 3 }

def demoSysEnd : Sys :=
  { st :=
      { initDash with loading := false, error := some noCredsMsg, lastRefresh := some 5,
                      refreshCount := 1 },
    awaitingCred := 0, awaitingFetch := 0, fetchCalls := 1, renders := 4 }

def demoEvents : List REvent := [.trigger, .trigger, .credSome, .credNone, .fetchDone none 5]

/-- Witness for the amended C1 on a concrete five-event run with two
overlapping triggers: the final `refreshCount` is 1 — one per completed
fetch cycle, none for the trigger or the no-credential completion. -/
theorem run_refresh_accounting_witness :
    Run demoSys demoEvents demoSysEnd ∧
      (demoSysEnd.st.refreshCount = demoSys.st.refreshCount + demoEvents.countP REvent.isFetch ∧
        inFlight demoSysEnd + demoEvents.countP REvent.isCredNone +
            demoEvents.countP REvent.isFetch =
          inFlight demoSys + demoEvents.countP REvent.isTrigger ∧
        demoSysEnd.fetchCalls = demoSys.fetchCalls + demoEvents.countP REvent.isCredSome) := by
  have hrun : Run demoSys demoEvents demoSysEnd :=
    Run.cons (RStep.trigger demoSys)
      (Run.cons (RStep.trigger demoSys1)
        (Run.cons (RStep.credSome demoSys2 (by decide))
          (Run.cons (RStep.credNone demoSys3 (by decide))
            (Run.cons (RStep.fetchDone demoSys4 none 5 (by decide)) (Run.nil demoSysEnd)))))
  exact ⟨hrun, run_refresh_accounting demoSys demoEvents demoSysEnd hrun⟩

/-- C5: whenever a refresh cycle obtains no credential, it sets the error to
exactly "No credentials found", clears `loading`, requests one repaint, and
returns — without invoking the data-fetch collaborator and without touching
`data`, `lastRefresh` or `refreshCount`. -/
theorem refresh_no_credentials (s t : Sys) (h : RStep .credNone s t) :
    t.st.error = some noCredsMsg ∧ t.st.loading = false ∧ t.renders = s.renders + 1 ∧
      t.fetchCalls = s.fetchCalls ∧ t.st.data = s.st.data ∧
      t.st.lastRefresh = s.st.lastRefresh ∧ t.st.refreshCount = s.st.refreshCount ∧
      t.awaitingFetch = s.awaitingFetch ∧ t.awaitingCred + 1 = s.awaitingCred := by
  cases h with
  | credNone s hp =>
      refine ⟨rfl, rfl, rfl, rfl, rfl, rfl, rfl, rfl, ?_⟩
      show s.awaitingCred - 1 + 1 = s.awaitingCred
      omega

def c5Before : Sys :=
  { st := { initDash with loading := true }, awaitingCred := 1, awaitingFetch := 0,
    fetchCalls := 0, renders := 1 }

def c5After : Sys :=
  { st := { initDash with loading := false, error := some noCredsMsg },
    awaitingCred := 0, awaitingFetch := 0, fetchCalls := 0, renders := 2 }

/-- Witness for C5 at a concrete in-flight state. -/
theorem refresh_no_credentials_witness :
    RStep .credNone c5Before c5After ∧
      (c5After.st.error = some noCredsMsg ∧ c5After.st.loading = false ∧
        c5After.renders = c5Before.renders + 1 ∧ c5After.fetchCalls = c5Before.fetchCalls ∧
        c5After.st.data = c5Before.st.data ∧
        c5After.st.lastRefresh = c5Before.st.lastRefresh ∧
        c5After.st.refreshCount = c5Before.st.refreshCount ∧
        c5After.awaitingFetch = c5Before.awaitingFetch ∧
        c5After.awaitingCred + 1 = c5Before.awaitingCred) := by
  have hstep : RStep .credNone c5Before c5After := RStep.credNone c5Before (by decide)
  exact ⟨hstep, refresh_no_credentials c5Before c5After hstep⟩

/-- C6: an envelope chunk whose payload parses to method "resize" with a
params object has `cols`/`rows` applied directly to the terminal dimensions
— a missing or zero field keeping the prior value — followed by a repaint;
envelopes with malformed JSON or an unrecognized method are ignored without
modifying any state; the handler is a total function, so it never crashes. -/
theorem handleChunk_resize_rules :
    (∀ (parse : List Char → Option RpcMsg) (ts : TermSize) (chunk : List Char)
        (msg : RpcMsg) (p : RpcParams),
        chunk.take 12 = rpcSentinel → parse (chunk.drop 12) = some msg →
        msg.method = some ("resize".toList) → msg.params = some p →
        handleChunk parse ts chunk = (applyResize ts p, true, none) ∧
          (∀ c, p.cols = some c → c ≠ 0 → (applyResize ts p).cols = c) ∧
          (p.cols = none ∨ p.cols = some 0 → (applyResize ts p).cols = ts.cols) ∧
          (∀ r, p.rows = some r → r ≠ 0 → (applyResize ts p).rows = r) ∧
          (p.rows = none ∨ p.rows = some 0 → (applyResize ts p).rows = ts.rows)) ∧
      (∀ (parse : List Char → Option RpcMsg) (ts : TermSize) (chunk : List Char),
        chunk.take 12 = rpcSentinel → parse (chunk.drop 12) = none →
        handleChunk parse ts chunk = (ts, false, none)) ∧
      (∀ (parse : List Char → Option RpcMsg) (ts : TermSize) (chunk : List Char)
        (msg : RpcMsg),
        chunk.take 12 = rpcSentinel → parse (chunk.drop 12) = some msg →
        msg.method ≠ some ("resize".toList) →
        handleChunk parse ts chunk = (ts, false, none)) := by
  refine ⟨?_, ?_, ?_⟩
  · intro parse ts chunk msg p hs hp hm hpp
    refine ⟨?_, ?_, ?_, ?_, ?_⟩
    · obtain ⟨mm, mp⟩ := msg
      simp only at hm hpp
      subst hm
      subst hpp
      unfold handleChunk
      rw [if_pos hs, hp]
      rfl
    · intro c hc hc0
      simp [applyResize, hc, hc0]
    · intro hcase
      rcases hcase with hcc | hcc <;> simp [applyResize, hcc]
    · intro r hr hr0
      simp [applyResize, hr, hr0]
    · intro hcase
      rcases hcase with hcc | hcc <;> simp [applyResize, hcc]
  · intro parse ts chunk hs hp
    unfold handleChunk
    rw [if_pos hs, hp]
  · intro parse ts chunk msg hs hp hm
    obtain ⟨mm, mp⟩ := msg
    simp only at hm
    unfold handleChunk
    rw [if_pos hs, hp]
    rcases mm with _ | m <;> rcases mp with _ | p
    · rfl
    · rfl
    · rfl
    · have hne : ¬ m = "resize".toList := by
        intro e
        apply hm
        rw [e]
      show (if m = "resize".toList then (applyResize ts p, true, none)
        else (ts, false, (none : Option (List Char)))) = (ts, false, none)
      rw [if_neg hne]

def c6Params : RpcParams := { cols := some 100, rows := some 0 }

def c6Msg : RpcMsg := { method := some ("resize".toList), params := some c6Params }

def c6Parse : List Char → Option RpcMsg := fun _ => some c6Msg

def c6ParseBad : List Char → Option RpcMsg := fun _ => none

def c6Chunk : List Char := rpcSentinel ++ "x".toList

/-- Witness for C6: a resize envelope with `cols = 100` and `rows = 0`
updates `cols`, keeps the prior `rows` (zero is falsy), and repaints; a
malformed envelope is ignored without changing the dimensions. -/
theorem handleChunk_resize_rules_witness :
    c6Chunk.take 12 = rpcSentinel ∧ c6Parse (c6Chunk.drop 12) = some c6Msg ∧
      c6Msg.method = some ("resize".toList) ∧ c6Msg.params = some c6Params ∧
      handleChunk c6Parse ⟨80, 24⟩ c6Chunk = (applyResize ⟨80, 24⟩ c6Params, true, none) ∧
      applyResize (⟨80, 24⟩ : TermSize) c6Params = ⟨100, 24⟩ ∧
      handleChunk c6ParseBad ⟨80, 24⟩ c6Chunk = (⟨80, 24⟩, false, none) := by
  refine ⟨by decide, rfl, rfl, rfl, ?_, by decide, ?_⟩
  · exact (handleChunk_resize_rules.1 c6Parse ⟨80, 24⟩ c6Chunk c6Msg c6Params
      (by decide) rfl rfl rfl).1
  · exact handleChunk_resize_rules.2.1 c6ParseBad ⟨80, 24⟩ c6Chunk (by decide) rfl
